import Mathlib

/-!
Verification development for the MindWeaver connection-discovery engine
(src/main.ts).  The TypeScript source is shallowly embedded: pure fragments
become Lean functions, the network (model responses, vault reads) becomes
explicit oracle inputs, and the sequence of outbound effects is modelled as
an explicit event trace.  JavaScript string primitives (trim, toLowerCase,
split, startsWith, includes, Set de-duplication) are modelled by executable
definitions on character lists so that every concrete run evaluates inside
the kernel.
-/

namespace MindWeaver

/-- Whitespace characters removed by the JavaScript string trim method
(the source documents only use space, tab, carriage return and newline). -/
def isWsChar (c : Char) : Bool :=
  c = ' ' || c = '\t' || c = '\n' || c = '\r'

/-- Drop leading and trailing whitespace from a character list. -/
def trimChars (l : List Char) : List Char :=
  ((l.dropWhile isWsChar).reverse.dropWhile isWsChar).reverse

/-- Model of the JavaScript trim method. -/
def jsTrim (s : String) : String :=
  String.mk (trimChars s.data)

/-- Model of the JavaScript toLowerCase method (ASCII, which covers every
string the source compares). -/
def jsToLower (s : String) : String :=
  String.mk (s.data.map Char.toLower)

/-- Model of the JavaScript startsWith method. -/
def jsStartsWith (s pre : String) : Bool :=
  pre.data.isPrefixOf s.data

/-- Split a list at the first occurrence of the pattern `pat`: returns the
part before the occurrence and the part after it, or `none` when `pat` does
not occur.  Models a first-match regex search or indexOf. -/
def breakOn (pat : List Char) : List Char → Option (List Char × List Char)
  | [] => if pat = [] then some ([], []) else none
  | c :: rest =>
    if pat.isPrefixOf (c :: rest) then some ([], (c :: rest).drop pat.length)
    else
      match breakOn pat rest with
      | some (pre, post) => some (c :: pre, post)
      | none => none

/-- Substring test, modelling the JavaScript includes method. -/
def containsSub (s pat : List Char) : Bool :=
  (breakOn pat s).isSome

/-- Fuelled worker for `splitOnSep`; the fuel is the length of the input,
enough because every removed separator occurrence consumes at least one
character. -/
def splitOnSepAux (sep : List Char) : Nat → List Char → List (List Char)
  | 0, s => [s]
  | Nat.succ fuel, s =>
    match breakOn sep s with
    | none => [s]
    | some (pre, post) => pre :: splitOnSepAux sep fuel post

/-- Split on every occurrence of a separator, modelling the JavaScript
split method (for a non-empty separator). -/
def splitOnSep (sep : List Char) (s : List Char) : List (List Char) :=
  splitOnSepAux sep s.length s

/-- Model of the JavaScript split method on strings. -/
def jsSplit (s sep : String) : List String :=
  (splitOnSep sep.data s.data).map String.mk

/-- Join a list of strings with a separator, modelling Array.prototype.join. -/
def joinWith (sep : String) : List String → String
  | [] => ""
  | [x] => x
  | x :: y :: xs => x ++ sep ++ joinWith sep (y :: xs)

/-- Membership of a string in a list, modelling Array.prototype.includes
and Set.prototype.has (exact, case-sensitive match). -/
def containsStr (l : List String) (x : String) : Bool :=
  l.any (fun y => decide (y = x))

/-- Insertion-ordered de-duplication, modelling the JavaScript idiom
Array.from(new Set(list)): keeps the first occurrence of each element. -/
def dedupJS (l : List String) : List String :=
  l.foldl (fun acc t => if containsStr acc t then acc else acc ++ [t]) []

/-- JSON values, as produced by JSON.parse: the subset that matters for the
pre-filter response shape (arrays of literals; nested arrays also allowed). -/
inductive Json where
  | bool (b : Bool)
  | num (n : Int)
  | str (s : String)
  | arr (xs : List Json)
  | null

/-- JavaScript truthiness of a JSON value, used when the source tests an
array element with a bang or an if. -/
def truthy : Json → Bool
  | Json.bool b => b
  | Json.num n => decide (n ≠ 0)
  | Json.str s => decide (s ≠ "")
  | Json.arr _ => true
  | Json.null => false

/-- Array test, modelling Array.isArray. -/
def Json.isArr : Json → Bool
  | Json.arr _ => true
  | _ => false

/-- Boolean-literal test on a JSON value. -/
def Json.isBoolLit : Json → Bool
  | Json.bool _ => true
  | _ => false

/-- Whether a JSON value is an array whose elements are all boolean
literals (the shape the specification calls a boolean array). -/
def isBoolArray : Json → Bool
  | Json.arr xs => xs.all Json.isBoolLit
  | _ => false

/-- Model identifiers, the keys of the MODEL_PRICING table and the values of
the model setting in src/main.ts. -/
inductive Model where
  | gpt4
  | gpt35turbo
  | claude35
  | claude3
  | llama270b
  | llamaLocal
  | ollama
deriving DecidableEq

/-- Provider kinds, the provider field of the MODEL_PRICING table. -/
inductive Provider where
  | openai
  | anthropic
  | together
  | local
deriving DecidableEq

/-- Provider column of the MODEL_PRICING table in src/main.ts (the numeric
pricing columns play no part in any claim). -/
def MODEL_PRICING_provider : Model → Provider
  | Model.gpt4 => Provider.openai
  | Model.gpt35turbo => Provider.openai
  | Model.claude35 => Provider.anthropic
  | Model.claude3 => Provider.anthropic
  | Model.llama270b => Provider.together
  | Model.llamaLocal => Provider.local
  | Model.ollama => Provider.local

/-- Connection strength setting. -/
inductive Strength where
  | strict
  | balanced
  | relaxed
deriving DecidableEq

/-- Backlink output layout setting. -/
inductive LinkFormat where
  | comma
  | bullet
  | number
  | line
deriving DecidableEq

/-- The AutoBacklinksSettings fields that the connection pipeline and the
tag weaver read (endpoint URLs and UI-only fields are omitted: they never
influence a value any claim is about). -/
structure Settings where
  apiKey : String
  togetherApiKey : String
  anthropicKey : String
  model : Model
  connectionStrength : Strength
  excludedFolders : List String
  specialInstructions : String
  format : LinkFormat
  showHeader : Bool
  headerLevel : Nat
  customTags : List String
  useOnlyCustomTags : Bool

/-- A markdown file of the vault as the host hands it to the plugin:
its full vault path and its basename (path with folders and the md
extension stripped). -/
structure VaultFile where
  path : String
  basename : String
deriving DecidableEq

/-- Model of app.vault.getAbstractFileByPath: exact path lookup; every file
of the modelled vault is a TFile. -/
def getAbstractFileByPath (vault : List VaultFile) (p : String) : Option VaultFile :=
  vault.find? (fun f => f.path = p)

/-- Transcription of isFileExcluded: an excluded folder matches by path
prefix (folder plus slash) or by exact path. -/
def isFileExcluded (s : Settings) (f : VaultFile) : Bool :=
  s.excludedFolders.any (fun folder => jsStartsWith f.path (folder ++ "/") || f.path = folder)

/-- The RPM_LIMIT constant of the source rate limiter. -/
def RPM_LIMIT : Nat := 150

/-- The MIN_REQUEST_INTERVAL constant of the source rate limiter, in
milliseconds. -/
def MIN_REQUEST_INTERVAL : Nat := 500

/-- Mutable fields of the source rate limiter. -/
structure RateLimiterState where
  lastRequestTime : Nat
  requestsInLastMinute : Nat

/-- Transcription of waitForRateLimit as a state transition: given the entry
time `now` (milliseconds), returns the grant time (the value stored into
lastRequestTime after all awaited delays) and the updated state.  The
elapsed-time test uses the entry time, as the source computes
timeSinceLastRequest before any waiting. -/
def waitForRateLimit (st : RateLimiterState) (now : Nat) : Nat × RateLimiterState :=
  let reqs := st.requestsInLastMinute + 1
  let timeSince := now - st.lastRequestTime
  let afterCooldown : Nat × Nat :=
    if RPM_LIMIT ≤ reqs then (now + 60 * 1000, 0) else (now, reqs)
  let grant :=
    if timeSince < MIN_REQUEST_INTERVAL then
      afterCooldown.1 + (MIN_REQUEST_INTERVAL - timeSince)
    else afterCooldown.1
  (grant, { lastRequestTime := grant, requestsInLastMinute := afterCooldown.2 })

/-- The wire protocols the four request methods speak. -/
inductive Wire where
  | openaiChat
  | anthropicMessages
  | togetherInference
  | llamaCompletion
  | ollamaGenerate
deriving DecidableEq

/-- Endpoint chosen inside makeLlamaRequest: the method branches on whether
the configured model is ollama. -/
def llamaWire (m : Model) : Wire :=
  if m = Model.ollama then Wire.ollamaGenerate else Wire.llamaCompletion

/-- Wire actually used by a call to makeOpenAIRequest: the method forwards
together-provider models to makeTogetherRequest and local-provider models to
makeLlamaRequest, and sends everything else (including anthropic-provider
models) to the OpenAI chat completions endpoint. -/
def makeOpenAIRequestWire (m : Model) : Wire :=
  match MODEL_PRICING_provider m with
  | Provider.together => Wire.togetherInference
  | Provider.local => llamaWire m
  | _ => Wire.openaiChat

/-- Wire used by the title pre-filter: checkTitlesRelevance issues its one
model call through makeOpenAIRequest. -/
def prefilterWire (m : Model) : Wire :=
  makeOpenAIRequestWire m

/-- Wire used by the connection validator: validateConnection switches on
the provider of the configured model and calls the matching request
method. -/
def validateWire (m : Model) : Wire :=
  match MODEL_PRICING_provider m with
  | Provider.openai => makeOpenAIRequestWire m
  | Provider.anthropic => Wire.anthropicMessages
  | Provider.together => Wire.togetherInference
  | Provider.local => llamaWire m

/-- Wire used by the tag weaver: weaveTagsIntoNote switches on the model
identifier; the ollama identifier falls to the default case, which throws
an unsupported-model error (hence no wire). -/
def weaveWire : Model → Option Wire
  | Model.gpt4 => some Wire.openaiChat
  | Model.gpt35turbo => some Wire.openaiChat
  | Model.claude35 => some Wire.anthropicMessages
  | Model.claude3 => some Wire.anthropicMessages
  | Model.llama270b => some Wire.togetherInference
  | Model.llamaLocal => some Wire.llamaCompletion
  | Model.ollama => none

/-- Modelled from the spec: the wire adapter the specification calls each
provider kind's own adapter (section 4.1 of the spec); for the local kind
the endpoint still depends on which local model is configured.  This is the
spec-side definition that the source dispatch functions are compared
against. -/
def specOwnAdapterWire (m : Model) : Wire :=
  match MODEL_PRICING_provider m with
  | Provider.openai => Wire.openaiChat
  | Provider.anthropic => Wire.anthropicMessages
  | Provider.together => Wire.togetherInference
  | Provider.local => llamaWire m

/-- An apostrophe, kept out of string literals. -/
def apos : String := String.mk [Char.ofNat 39]

/-- The instruction makeLlamaRequest concatenates onto the joined prompt for
both local endpoints (the text contains two quoted words). -/
def llamaInstruction : String :=
  "\nRespond with ONLY " ++ apos ++ "true" ++ apos ++ " or " ++ apos ++ "false" ++ apos
    ++ ", nothing else."

/-- Joined prompt the non-chat adapters build from the messages list: each
message rendered as role, colon, space, content, joined by newlines. -/
def joinPrompt (messages : List (String × String)) : String :=
  joinWith "\n" (messages.map (fun m => m.1 ++ ": " ++ m.2))

/-- Prompt string makeLlamaRequest sends to the ollama generate endpoint:
the joined messages with the instruction concatenated at the end. -/
def ollamaPromptSent (messages : List (String × String)) : String :=
  joinPrompt messages ++ llamaInstruction

/-- Prompt string makeLlamaRequest sends to the llama.cpp completion
endpoint: identical concatenation. -/
def llamaPromptSent (messages : List (String × String)) : String :=
  joinPrompt messages ++ llamaInstruction

/-- Result of a local-adapter call after its own response handling: either
a normalized text or the thrown failed-to-get-clear-response error. -/
inductive LlamaReply where
  | ok (text : String)
  | ambiguousError
deriving DecidableEq

/-- Transcription of the ollama branch of makeLlamaRequest: lowercase and
trim the raw response, then test for the substring true and otherwise for
the substring false; if neither occurs, throw. -/
def ollamaExtract (raw : String) : LlamaReply :=
  let t := jsTrim (jsToLower raw)
  if containsSub t.data "true".data then LlamaReply.ok "true"
  else if containsSub t.data "false".data then LlamaReply.ok "false"
  else LlamaReply.ambiguousError

/-- Transcription of the llama.cpp branch of makeLlamaRequest: the raw
content field is returned as the normalized text, with no token search. -/
def llamaExtract (raw : String) : LlamaReply :=
  LlamaReply.ok raw

/-- Outcome of a gateway call as the validator sees it: the normalized
response text, or a thrown transport or provider error. -/
inductive VOutcome where
  | err
  | ok (text : String)
deriving DecidableEq

/-- Outcome of the pre-filter gateway call: a thrown error, or a response
whose trimmed text JSON.parse turned into a value (none when JSON.parse
itself threw).  JSON.parse is a platform primitive, so its result is an
oracle input. -/
inductive TitleOutcome where
  | err
  | ok (parsed : Option Json)

/-- Transcription of checkTitlesRelevance response handling: a parsed array
of exactly the input length is returned (elements read through JavaScript
truthiness, as the caller tests them with a bang); any other parse result,
and any thrown error, yields all-true.  The prompt text is not modelled:
the response is an oracle input. -/
def checkTitlesRelevance (otherTitles : List String) (resp : TitleOutcome) : List Bool :=
  match resp with
  | TitleOutcome.err => otherTitles.map (fun _ => true)
  | TitleOutcome.ok parsed =>
    match parsed with
    | some (Json.arr xs) =>
      if xs.length = otherTitles.length then xs.map truthy
      else otherTitles.map (fun _ => true)
    | _ => otherTitles.map (fun _ => true)

/-- Transcription of validateConnection: the provider dispatch always
produces one gateway call whose outcome is the oracle input; a thrown error
is caught and returns false, and a response is accepted exactly when its
trimmed, lowercased text equals the literal true.  The strength-dependent
system prompt only shapes the request, not the response handling, so it is
not modelled. -/
def validateConnection (s : Settings) (currentContent otherContent : String)
    (outcome : VOutcome) : Bool :=
  match outcome with
  | VOutcome.err => false
  | VOutcome.ok t => decide (jsToLower (jsTrim t) = "true")

/-- Second half of the wiki-link capture: the text up to the first double
close bracket of the remainder after the double open bracket. -/
def extractAfterOpen (afterOpen : List Char) : Option String :=
  match breakOn "]]".data afterOpen with
  | none => none
  | some (cap, _) => some (String.mk cap)

/-- Transcription of the regex match in validateAndFilterConnections that
recovers a filename from a wiki link: the capture between the first
double open bracket and the first double close bracket after it. -/
def extractWikiLink (s : String) : Option String :=
  match breakOn "[[".data s.data with
  | none => none
  | some (_, afterOpen) => extractAfterOpen afterOpen

/-- The CHUNK_SIZE constant of validateAndFilterConnections. -/
def CHUNK_SIZE : Nat := 5

/-- Split a list into consecutive chunks of five, the slices the
validateAndFilterConnections loop takes. -/
def chunksOf5 : List α → List (List α)
  | [] => []
  | [a] => [[a]]
  | [a, b] => [[a, b]]
  | [a, b, c] => [[a, b, c]]
  | [a, b, c, d] => [[a, b, c, d]]
  | a :: b :: c :: d :: e :: rest => [a, b, c, d, e] :: chunksOf5 rest

/-- Everything one pipeline invocation depends on besides the settings: the
vault snapshot and the three externally supplied behaviours (the pre-filter
model response per chunk, vault reads, and the validator model outcome per
candidate body). -/
structure Env where
  settings : Settings
  vault : List VaultFile
  titleResp : String → List String → TitleOutcome
  readFile : VaultFile → Option String
  validResp : String → VOutcome

/-- Transcription of the fileInfos computation at the top of
validateAndFilterConnections: extract a filename from each link, drop links
without one, then keep only those whose basename resolves to a vault file
at the root path basename dot md that is not excluded. -/
def resolveFileInfos (env : Env) (connections : List String) : List (String × String) :=
  (connections.filterMap (fun link =>
      (extractWikiLink link).map (fun fn => (link, fn)))).filter
    (fun info =>
      match getAbstractFileByPath env.vault (info.2 ++ ".md") with
      | some f => !(isFileExcluded env.settings f)
      | none => false)

/-- Transcription of one iteration of the inner loop of
validateAndFilterConnections, for the pair of a chunk entry (link and
filename) with its pre-filter verdict: a skipped or failing candidate
contributes nothing, a validated one contributes its link. -/
def processItem (env : Env) (currentContent : String)
    (item : (String × String) × Bool) : Option String :=
  match item with
  | ((link, filename), relevant) =>
    if relevant then
      match getAbstractFileByPath env.vault (filename ++ ".md") with
      | none => none
      | some file =>
        match env.readFile file with
        | none => none
        | some content =>
          if validateConnection env.settings currentContent content
              (env.validResp content) then some link
          else none
    else none

/-- Transcription of one chunk iteration of validateAndFilterConnections:
one checkTitlesRelevance call over the chunk titles, then the inner loop
over the chunk. -/
def processChunk (env : Env) (currentTitle currentContent : String)
    (chunk : List (String × String)) : List String :=
  let titles := chunk.map Prod.snd
  let rel := checkTitlesRelevance titles (env.titleResp currentTitle titles)
  (chunk.zip rel).filterMap (processItem env currentContent)

/-- Transcription of validateAndFilterConnections: resolve the links, walk
them in chunks of five, and collect every validated link in loop order.
The progress notice and counters do not affect the returned list. -/
def validateAndFilterConnections (env : Env) (connections : List String)
    (currentContent : String) (currentFile : Option VaultFile) : List String :=
  match currentFile with
  | none => []
  | some cf =>
    ((chunksOf5 (resolveFileInfos env connections)).map
      (processChunk env cf.basename currentContent)).flatten

/-- Transcription of formatConnections: optional header built from the
header level, then the links laid out by the selected format, then a final
newline; the empty list formats to the empty string. -/
def formatConnections (s : Settings) (links : List String) : String :=
  if links.length = 0 then ""
  else
    let header :=
      if s.showHeader then String.mk (List.replicate s.headerLevel '#') ++ " Related notes\n"
      else ""
    let formattedLinks :=
      match s.format with
      | LinkFormat.comma => joinWith ", " links
      | LinkFormat.bullet => joinWith "\n" (links.map (fun link => "- " ++ link))
      | LinkFormat.number =>
        joinWith "\n" (links.enum.map (fun p => toString (p.1 + 1) ++ ". " ++ p.2))
      | LinkFormat.line => joinWith "\n" links
    header ++ formattedLinks ++ "\n"

/-- Whether the credential guard at the top of generateBacklinks fires: it
tests the three API key fields together, with no reference to the selected
model or its provider. -/
def missingAllKeys (s : Settings) : Bool :=
  decide (s.apiKey = "") && decide (s.togetherApiKey = "") && decide (s.anthropicKey = "")

/-- Observable outcome of one generateBacklinks invocation: which notice
path it ends on, and for a successful run the exact text handed to the
editor at the cursor. -/
inductive GenResult where
  | missingKey
  | noActiveFile
  | errorNotice
  | noConnections
  | noEditor
  | inserted (text : String)
deriving DecidableEq

/-- The potentialConnections list generateBacklinks builds: every vault
file other than the current one and not excluded, rendered as a wiki link
around its basename. -/
def potentialConnections (env : Env) (cf : VaultFile) : List String :=
  (env.vault.filter (fun f => !(decide (f.path = cf.path)) && !(isFileExcluded env.settings f))).map
    (fun f => "[[" ++ f.basename ++ "]]")

/-- Transcription of generateBacklinks: credential guard, active-file
guard, read of the current file (a thrown read lands in the outer catch),
candidate construction, validation, and either insertion of the formatted
list at the cursor or the no-connections notice. -/
def generateBacklinks (env : Env) (activeFile : Option VaultFile)
    (editorPresent : Bool) : GenResult :=
  if missingAllKeys env.settings then GenResult.missingKey
  else
    match activeFile with
    | none => GenResult.noActiveFile
    | some cf =>
      match env.readFile cf with
      | none => GenResult.errorNotice
      | some currentContent =>
        let validated :=
          validateAndFilterConnections env (potentialConnections env cf)
            currentContent (some cf)
        if 0 < validated.length then
          if editorPresent then GenResult.inserted (formatConnections env.settings validated)
          else GenResult.noEditor
        else GenResult.noConnections

/-- Normalization weaveTagsIntoNote applies to each custom tag: prefix a
hash unless one is already there. -/
def formatCustomTag (t : String) : String :=
  if jsStartsWith t "#" then t else "#" ++ t

/-- Transcription of the availableTags computation of weaveTagsIntoNote:
the vault tag set (skipped in custom-only mode) extended by the formatted
custom tags, with JavaScript Set de-duplication at each step.  The vault
tag collection order is an oracle input (the host metadata cache). -/
def computeAvailableTags (s : Settings) (vaultTags : List String) : List String :=
  let base := if s.useOnlyCustomTags then [] else dedupJS vaultTags
  if 0 < s.customTags.length then dedupJS (base ++ s.customTags.map formatCustomTag)
  else base

/-- Transcription of the response handling of weaveTagsIntoNote: split the
response text on commas, trim each piece, and keep exactly the pieces that
are members of the available-tags list. -/
def suggestedTags (respText : String) (availableTags : List String) : List String :=
  ((jsSplit respText ",").map jsTrim).filter (fun tag => containsStr availableTags tag)

/-- Observable outcome of one weaveTagsIntoNote invocation. -/
inductive WeaveResult where
  | noTagsAvailable
  | errorNotice
  | noRelevant
  | allPresent
  | added (tags : List String)
deriving DecidableEq

/-- Transcription of weaveTagsIntoNote: empty-vocabulary guard, model
dispatch (the ollama identifier throws unsupported-model, caught as an
error notice), response filtering against the vocabulary, then removal of
tags already present in the host-supplied existing-tag set; each empty
stage ends in its own informational notice.  The file and editor handles
are assumed present (host precondition). -/
def weaveTagsIntoNote (s : Settings) (vaultTags : List String)
    (existingTags : List String) (resp : VOutcome) : WeaveResult :=
  let availableTags := computeAvailableTags s vaultTags
  if availableTags.length = 0 then WeaveResult.noTagsAvailable
  else
    match weaveWire s.model with
    | none => WeaveResult.errorNotice
    | some _ =>
      match resp with
      | VOutcome.err => WeaveResult.errorNotice
      | VOutcome.ok text =>
        let suggested := suggestedTags text availableTags
        if suggested.length = 0 then WeaveResult.noRelevant
        else
          let newTags := suggested.filter (fun tag => !(containsStr existingTags tag))
          if newTags.length = 0 then WeaveResult.allPresent
          else WeaveResult.added newTags

/-- Outbound effects of one invocation, in issue order: a slot acquisition
from the rate limiter (one waitForRateLimit call), an outbound model call
on a wire, or a fixed setTimeout pause in milliseconds. -/
inductive Event where
  | rateLimitWait
  | modelCall (w : Wire)
  | sleep (ms : Nat)
deriving DecidableEq

/-- Predicate picking out slot acquisitions in a trace. -/
def isRateWait : Event → Bool
  | Event.rateLimitWait => true
  | _ => false

/-- Predicate picking out outbound model calls in a trace. -/
def isModelCall : Event → Bool
  | Event.modelCall _ => true
  | _ => false

/-- Effect trace of one checkTitlesRelevance call: exactly the single
makeOpenAIRequest call; the source body contains no waitForRateLimit
call. -/
def checkTitlesRelevanceTrace (s : Settings) : List Event :=
  [Event.modelCall (prefilterWire s.model)]

/-- Effect trace of one validateConnection call: exactly the single
dispatched request; the source body contains no waitForRateLimit call. -/
def validateConnectionTrace (s : Settings) : List Event :=
  [Event.modelCall (validateWire s.model)]

/-- Effect trace of one inner-loop iteration of
validateAndFilterConnections: a candidate that survives the pre-filter,
resolves and reads successfully costs one validator call; every other
candidate costs nothing. -/
def processItemTrace (env : Env) (item : (String × String) × Bool) : List Event :=
  match item with
  | ((_, filename), relevant) =>
    if relevant then
      match getAbstractFileByPath env.vault (filename ++ ".md") with
      | none => []
      | some file =>
        match env.readFile file with
        | none => []
        | some _ => validateConnectionTrace env.settings
    else []

/-- Effect trace of one chunk iteration: the pre-filter call, the
inner-loop calls, then the fixed one-second inter-chunk pause. -/
def processChunkTrace (env : Env) (currentTitle : String)
    (chunk : List (String × String)) : List Event :=
  let titles := chunk.map Prod.snd
  let rel := checkTitlesRelevance titles (env.titleResp currentTitle titles)
  checkTitlesRelevanceTrace env.settings
    ++ ((chunk.zip rel).map (processItemTrace env)).flatten
    ++ [Event.sleep 1000]

/-- Effect trace of validateAndFilterConnections. -/
def validateAndFilterConnectionsTrace (env : Env) (connections : List String)
    (currentFile : Option VaultFile) : List Event :=
  match currentFile with
  | none => []
  | some cf =>
    ((chunksOf5 (resolveFileInfos env connections)).map
      (processChunkTrace env cf.basename)).flatten

/-- Effect trace of one generateBacklinks invocation; every abort path
before the pipeline issues no outbound call. -/
def generateBacklinksTrace (env : Env) (activeFile : Option VaultFile) : List Event :=
  if missingAllKeys env.settings then []
  else
    match activeFile with
    | none => []
    | some cf =>
      match env.readFile cf with
      | none => []
      | some _ =>
        validateAndFilterConnectionsTrace env (potentialConnections env cf) (some cf)

/-- Modelled from the spec: lexicographic comparison by character code,
the order the specification says the validated-link set is sorted in
before formatting (executable, for checking sortedness of concrete
outputs). -/
def lexLeChars : List Char → List Char → Bool
  | [], _ => true
  | _ :: _, [] => false
  | a :: as, b :: bs =>
    if a = b then lexLeChars as bs else decide (a.toNat < b.toNat)

/-- Modelled from the spec: whether a list of strings is sorted
lexicographically (adjacent pairs in order). -/
def isSortedLex : List String → Bool
  | [] => true
  | [_] => true
  | a :: b :: rest => lexLeChars a.data b.data && isSortedLex (b :: rest)

/-! Concrete fixtures: the vaults, settings and oracle behaviours of the
specification's end-to-end scenario and of the refuting runs. -/

/-- Source document of the end-to-end scenario. -/
def fileA : VaultFile := { path := "A.md", basename := "A" }

/-- Root-level candidate B of the end-to-end scenario. -/
def fileB : VaultFile := { path := "B.md", basename := "B" }

/-- Root-level candidate C of the end-to-end scenario. -/
def fileC : VaultFile := { path := "C.md", basename := "C" }

/-- A candidate note named B living inside folder X. -/
def fileXB : VaultFile := { path := "X/B.md", basename := "B" }

/-- Settings of the end-to-end scenario: an OpenAI model with a configured
key, comma format, header shown at level three. -/
def baseSettings : Settings :=
  { apiKey := "k"
    togetherApiKey := ""
    anthropicKey := ""
    model := Model.gpt4
    connectionStrength := Strength.balanced
    excludedFolders := []
    specialInstructions := ""
    format := LinkFormat.comma
    showHeader := true
    headerLevel := 3
    customTags := []
    useOnlyCustomTags := false }

/-- Pre-filter oracle of the end-to-end scenario: the model answers
true for B and false for C. -/
def titleRespE2E : String → List String → TitleOutcome := fun _ _ =>
  TitleOutcome.ok (some (Json.arr [Json.bool true, Json.bool false]))

/-- Pre-filter oracle answering a well-formed all-true array of the right
length for any chunk. -/
def titleRespAllTrue : String → List String → TitleOutcome := fun _ ts =>
  TitleOutcome.ok (some (Json.arr (ts.map (fun _ => Json.bool true))))

/-- Vault read oracle of the end-to-end scenario. -/
def readE2E : VaultFile → Option String := fun f =>
  if f.path = "A.md" then some "Compound interest grows savings"
  else if f.path = "B.md" then some "Explains compound interest formula"
  else some "Grocery list"

/-- Validator oracle of the end-to-end scenario: the model answers true
exactly for the body of B. -/
def validRespE2E : String → VOutcome := fun content =>
  if content = "Explains compound interest formula" then VOutcome.ok "true"
  else VOutcome.ok "false"

/-- Environment of the end-to-end scenario. -/
def envE2E : Env :=
  { settings := baseSettings
    vault := [fileA, fileB, fileC]
    titleResp := titleRespE2E
    readFile := readE2E
    validResp := validRespE2E }

/-- Environment with two distinct vault files sharing the basename B (one
at the root, one inside folder X), an all-accepting pre-filter and an
all-accepting validator: the run that produces a duplicated link. -/
def envDup : Env :=
  { settings := baseSettings
    vault := [fileA, fileB, fileXB]
    titleResp := titleRespAllTrue
    readFile := fun _ => some "body"
    validResp := fun _ => VOutcome.ok "true" }

/-- Environment whose vault lists C before B, with everything accepted:
the run whose output arrives at the formatter out of lexicographic
order. -/
def envUnsorted : Env :=
  { settings := baseSettings
    vault := [fileA, fileC, fileB]
    titleResp := titleRespAllTrue
    readFile := fun _ => some "body"
    validResp := fun _ => VOutcome.ok "true" }

/-- Environment whose vault holds the note B only inside folder X, with no
root-level B note. -/
def envNoRoot : Env :=
  { settings := baseSettings
    vault := [fileA, fileXB]
    titleResp := titleRespAllTrue
    readFile := fun _ => some "body"
    validResp := fun _ => VOutcome.ok "true" }

/-- Settings selecting an anthropic-family model whose own credential is
empty while the OpenAI credential is set. -/
def settingsClaudeNoKey : Settings :=
  { baseSettings with model := Model.claude3, apiKey := "sk-openai", anthropicKey := "" }

/-- Environment for the credential-check run with the anthropic family
selected and only the OpenAI key configured. -/
def envClaudeNoKey : Env :=
  { settings := settingsClaudeNoKey
    vault := [fileA, fileB]
    titleResp := titleRespAllTrue
    readFile := fun _ => some "body"
    validResp := fun _ => VOutcome.ok "true" }

/-! Helper lemmas shared by several claim theorems. -/

/-- The pre-filter answer always has the length of its input title list,
whatever the model response was. -/
theorem checkTitlesRelevance_length (ts : List String) (r : TitleOutcome) :
    (checkTitlesRelevance ts r).length = ts.length := by
  rcases r with _ | p
  · simp [checkTitlesRelevance]
  · rcases p with _ | j
    · simp [checkTitlesRelevance]
    · rcases j with b | n | s | xs | _
      · simp [checkTitlesRelevance]
      · simp [checkTitlesRelevance]
      · simp [checkTitlesRelevance]
      · simp only [checkTitlesRelevance]
        split <;> simp_all
      · simp [checkTitlesRelevance]

/-- A filterMap whose hits always return the image of the element under g
produces a sublist of the map of g. -/
theorem filterMap_sublist_map {α β : Type} (f : α → Option β) (g : α → β)
    (h : ∀ a b, f a = some b → b = g a) (l : List α) :
    List.Sublist (l.filterMap f) (l.map g) := by
  induction l with
  | nil => simp
  | cons a t ih =>
    rcases hfa : f a with _ | b
    · rw [List.map_cons, List.filterMap_cons_none hfa]
      exact ih.cons (g a)
    · rw [List.map_cons, List.filterMap_cons_some hfa, h a b hfa]
      exact ih.cons₂ (g a)

/-- An inner-loop iteration can only ever emit the link of its own item. -/
theorem processItem_eq_some (env : Env) (cc : String)
    (item : (String × String) × Bool) (l : String)
    (h : processItem env cc item = some l) : l = item.1.1 := by
  rcases item with ⟨⟨link, fn⟩, rel⟩
  cases rel with
  | false => simp [processItem] at h
  | true =>
    simp only [processItem, if_true] at h
    rcases hf : getAbstractFileByPath env.vault (fn ++ ".md") with _ | file
    · simp [hf] at h
    · simp only [hf] at h
      rcases hr : env.readFile file with _ | content
      · simp [hr] at h
      · simp only [hr] at h
        split at h
        · exact (Option.some.inj h).symm
        · cases h

/-- One chunk contributes a sublist of its own links, in order. -/
theorem processChunk_sublist (env : Env) (t cc : String)
    (chunk : List (String × String)) :
    List.Sublist (processChunk env t cc chunk) (chunk.map Prod.fst) := by
  unfold processChunk
  have hlen : (checkTitlesRelevance (chunk.map Prod.snd)
      (env.titleResp t (chunk.map Prod.snd))).length = chunk.length := by
    rw [checkTitlesRelevance_length, List.length_map]
  have h1 := filterMap_sublist_map (processItem env cc) (fun p => p.1.1)
    (fun a b hb => processItem_eq_some env cc a b hb)
    (chunk.zip (checkTitlesRelevance (chunk.map Prod.snd)
      (env.titleResp t (chunk.map Prod.snd))))
  have h3 : (chunk.zip (checkTitlesRelevance (chunk.map Prod.snd)
      (env.titleResp t (chunk.map Prod.snd)))).map Prod.fst = chunk :=
    List.map_fst_zip _ _ (le_of_eq hlen.symm)
  have h2 : (chunk.zip (checkTitlesRelevance (chunk.map Prod.snd)
      (env.titleResp t (chunk.map Prod.snd)))).map (fun p => p.1.1)
      = chunk.map Prod.fst := by
    calc (chunk.zip (checkTitlesRelevance (chunk.map Prod.snd)
          (env.titleResp t (chunk.map Prod.snd)))).map (fun p => p.1.1)
        = ((chunk.zip (checkTitlesRelevance (chunk.map Prod.snd)
            (env.titleResp t (chunk.map Prod.snd)))).map Prod.fst).map Prod.fst := by
          rw [List.map_map]; rfl
      _ = chunk.map Prod.fst := by rw [h3]
  exact h2 ▸ h1

/-- Pointwise sublists of mapped pieces flatten to a sublist. -/
theorem flatten_map_sublist {α β : Type} (f g : α → List β)
    (h : ∀ a, List.Sublist (f a) (g a)) (l : List α) :
    List.Sublist ((l.map f).flatten) ((l.map g).flatten) := by
  induction l with
  | nil => simp
  | cons a t ih => simpa using List.Sublist.append (h a) ih

/-- Chunking is a partition: flattening the chunks restores the list. -/
theorem chunksOf5_flatten {α : Type} (l : List α) : (chunksOf5 l).flatten = l := by
  induction l using chunksOf5.induct <;> simp [chunksOf5, *]

/-- Shared helper: the validated-link list is a sublist (order preserved,
multiplicities preserved, nothing inserted) of the resolved candidate
links. -/
theorem validated_sublist (env : Env) (conns : List String) (content : String)
    (cf : Option VaultFile) :
    List.Sublist (validateAndFilterConnections env conns content cf)
      ((resolveFileInfos env conns).map Prod.fst) := by
  rcases cf with _ | cf
  · exact List.nil_sublist _
  · show List.Sublist (((chunksOf5 (resolveFileInfos env conns)).map
      (processChunk env cf.basename content)).flatten) _
    have h := flatten_map_sublist (processChunk env cf.basename content)
      (List.map Prod.fst) (fun c => processChunk_sublist env cf.basename content c)
      (chunksOf5 (resolveFileInfos env conns))
    rwa [← List.map_flatten, chunksOf5_flatten] at h

/-- Shared helper: every entry of the resolved candidate list carries the
filename its link extracts to, and that filename resolved to a
non-excluded vault file at the root path. -/
theorem mem_resolveFileInfos (env : Env) (conns : List String)
    (info : String × String) (h : info ∈ resolveFileInfos env conns) :
    extractWikiLink info.1 = some info.2
      ∧ ∃ f, getAbstractFileByPath env.vault (info.2 ++ ".md") = some f
          ∧ isFileExcluded env.settings f = false := by
  unfold resolveFileInfos at h
  rw [List.mem_filter] at h
  obtain ⟨hmem, hcond⟩ := h
  rw [List.mem_filterMap] at hmem
  obtain ⟨link, _hlink, hfm⟩ := hmem
  have hext : extractWikiLink info.1 = some info.2 := by
    rcases he : extractWikiLink link with _ | fn
    · rw [he] at hfm; cases hfm
    · rw [he] at hfm
      have hfm2 : (link, fn) = info := by simpa using hfm
      subst hfm2
      simpa using he
  refine ⟨hext, ?_⟩
  rcases hg : getAbstractFileByPath env.vault (info.2 ++ ".md") with _ | f
  · rw [hg] at hcond; cases hcond
  · rw [hg] at hcond
    exact ⟨f, rfl, by simpa using hcond⟩

/-- Shared helper: searching for the closing double bracket in a
bracket-free payload followed by the closing pair finds exactly the
payload. -/
theorem breakOn_close_append (b : List Char)
    (hb : b.all (fun c => !(decide (c = ']'))) = true) :
    breakOn "]]".data (b ++ "]]".data) = some (b, []) := by
  induction b with
  | nil => decide
  | cons c cs ih =>
    rw [List.all_cons] at hb
    rw [Bool.and_eq_true] at hb
    obtain ⟨hc, hcs⟩ := hb
    have hc' : c ≠ ']' := by simpa using hc
    show breakOn "]]".data (c :: (cs ++ "]]".data)) = some (c :: cs, [])
    have hpre : ("]]".data).isPrefixOf (c :: (cs ++ "]]".data)) = false := by
      have : "]]".data = [']', ']'] := rfl
      rw [this]
      simp [List.isPrefixOf, beq_eq_false_iff_ne, Ne.symm hc']
    unfold breakOn
    rw [hpre, if_neg (by simp), ih hcs]

/-- Shared helper: the wiki-link regex capture over a well-formed link
around a bracket-free basename recovers exactly the basename. -/
theorem extractWikiLink_wrap (b : String)
    (hb : b.data.all (fun c => !(decide (c = ']'))) = true) :
    extractWikiLink ("[[" ++ b ++ "]]") = some b := by
  have hdata : ("[[" ++ b ++ "]]").data = '[' :: '[' :: (b.data ++ "]]".data) := by
    rw [String.data_append, String.data_append]
    rfl
  have hpre : ("[[".data).isPrefixOf ('[' :: '[' :: (b.data ++ "]]".data)) = true := by
    have h2 : "[[".data = ['[', '['] := rfl
    rw [h2]
    simp [List.isPrefixOf]
  have h1 : breakOn "[[".data ('[' :: '[' :: (b.data ++ "]]".data))
      = some ([], b.data ++ "]]".data) := by
    unfold breakOn
    rw [hpre, if_pos rfl]
    simp
  have h0 : extractWikiLink ("[[" ++ b ++ "]]")
      = extractAfterOpen (b.data ++ "]]".data) := by
    unfold extractWikiLink
    rw [hdata, h1]
  rw [h0]
  unfold extractAfterOpen
  rw [breakOn_close_append b.data hb]

/-- Shared helper: a flatten of event lists each free of hits of p is free
of hits of p. -/
theorem countP_flatten_zero (p : Event → Bool) (L : List (List Event))
    (h : ∀ l ∈ L, l.countP p = 0) : L.flatten.countP p = 0 := by
  induction L with
  | nil => simp
  | cons a t ih =>
    rw [List.flatten_cons, List.countP_append]
    rw [h a (by simp), ih (fun l hl => h l (List.mem_cons_of_mem a hl))]

/-- Shared helper: one inner-loop iteration acquires no rate-limiter
slot. -/
theorem processItemTrace_no_wait (env : Env) (item : (String × String) × Bool) :
    (processItemTrace env item).countP isRateWait = 0 := by
  rcases item with ⟨⟨l, fn⟩, rel⟩
  cases rel
  · simp [processItemTrace]
  · simp only [processItemTrace, if_true]
    rcases hf : getAbstractFileByPath env.vault (fn ++ ".md") with _ | f
    · simp [hf]
    · rcases hr : env.readFile f with _ | c
      · simp [hf, hr]
      · simp [hf, hr, validateConnectionTrace, isRateWait]

/-- Shared helper: one chunk iteration acquires no rate-limiter slot. -/
theorem processChunkTrace_no_wait (env : Env) (t : String)
    (chunk : List (String × String)) :
    (processChunkTrace env t chunk).countP isRateWait = 0 := by
  unfold processChunkTrace
  rw [List.countP_append, List.countP_append]
  rw [countP_flatten_zero isRateWait _ (fun l hl => by
    rw [List.mem_map] at hl
    obtain ⟨it, _, hit⟩ := hl
    rw [← hit]
    exact processItemTrace_no_wait env it)]
  simp [checkTitlesRelevanceTrace, isRateWait, List.countP_cons]

/-- Shared helper: the validation pipeline acquires no rate-limiter
slot. -/
theorem validateAndFilterConnectionsTrace_no_wait (env : Env)
    (conns : List String) (cf : Option VaultFile) :
    (validateAndFilterConnectionsTrace env conns cf).countP isRateWait = 0 := by
  rcases cf with _ | cf
  · simp [validateAndFilterConnectionsTrace]
  · show (((chunksOf5 (resolveFileInfos env conns)).map
      (processChunkTrace env cf.basename)).flatten).countP isRateWait = 0
    exact countP_flatten_zero _ _ (fun l hl => by
      rw [List.mem_map] at hl
      obtain ⟨c, _, hc⟩ := hl
      rw [← hc]
      exact processChunkTrace_no_wait env cf.basename c)

/-- Shared helper: a whole generateBacklinks invocation acquires no
rate-limiter slot. -/
theorem generateBacklinksTrace_no_wait (env : Env) (af : Option VaultFile) :
    (generateBacklinksTrace env af).countP isRateWait = 0 := by
  unfold generateBacklinksTrace
  split
  · simp
  · split
    · simp
    · split
      · simp
      · exact validateAndFilterConnectionsTrace_no_wait env _ _

/-! Claim theorems. -/

/-- Claim C1, code bug.  The method waitForRateLimit exists in the source
but has no call site: no pipeline stage acquires a slot from the rate
limiter before its model call.  Formally, every generateBacklinks effect
trace contains zero slot acquisitions, while the end-to-end scenario trace
does contain outbound model calls (two of them). -/
theorem C1_no_model_call_acquires_rate_limiter_slot :
    (∀ (env : Env) (af : Option VaultFile),
        (generateBacklinksTrace env af).countP isRateWait = 0)
      ∧ (generateBacklinksTrace envE2E (some fileA)).countP isModelCall = 2 :=
  ⟨fun env af => generateBacklinksTrace_no_wait env af, by decide⟩

/-- Claim C6, corrected.  The credential guard aborts exactly when all
three credentials (OpenAI, Together, Anthropic) are empty, regardless of
the selected provider family, and an abort issues no outbound call. -/
theorem C6_credential_check_family_agnostic :
    (∀ (env : Env) (af : Option VaultFile) (ep : Bool),
        generateBacklinks env af ep = GenResult.missingKey
          ↔ missingAllKeys env.settings = true)
      ∧ (∀ (env : Env) (af : Option VaultFile),
        missingAllKeys env.settings = true → generateBacklinksTrace env af = []) := by
  constructor
  · intro env af ep
    cases hmk : missingAllKeys env.settings
    · simp only [generateBacklinks, hmk, Bool.false_eq_true, if_false]
      constructor
      · intro h
        exfalso
        split at h
        · cases h
        · split at h
          · cases h
          · split at h
            · split at h
              · cases h
              · cases h
            · cases h
      · intro h
        cases h
    · simp [generateBacklinks, hmk]
  · intro env af h
    unfold generateBacklinksTrace
    rw [h]
    simp

/-- Claim C6, counterexample.  With the anthropic family selected and the
anthropic credential empty, but an OpenAI key configured, the guard does
not fire: the run proceeds, issues model calls, and completes. -/
theorem C6_cx_anthropic_family_key_missing_run_proceeds :
    missingAllKeys settingsClaudeNoKey = false
      ∧ MODEL_PRICING_provider settingsClaudeNoKey.model = Provider.anthropic
      ∧ settingsClaudeNoKey.anthropicKey = ""
      ∧ generateBacklinks envClaudeNoKey (some fileA) true
          = GenResult.inserted "### Related notes\n[[B]]\n"
      ∧ (generateBacklinksTrace envClaudeNoKey (some fileA)).countP isModelCall = 2 :=
  ⟨by decide, by decide, by decide, by decide, by decide⟩

/-- Claim C7, confirmed.  In the end-to-end scenario (source A, candidates
B and C, pre-filter answering true then false, validator accepting only B,
comma format, header shown at level three) the text handed to the editor
is exactly the header line and the single link, each newline-terminated. -/
theorem C7_e2e_scenario_exact_output :
    generateBacklinks envE2E (some fileA) true
        = GenResult.inserted "### Related notes\n[[B]]\n"
      ∧ formatConnections baseSettings ["[[B]]"] = "### Related notes\n[[B]]\n" :=
  ⟨by decide, by decide⟩

/-- Claim C2, corrected.  The collection of accepted links is handed to the
formatter exactly as collected: a sublist of the resolved candidate links
in candidate order, with duplicates retained; no de-duplication and no
lexicographic sort happens between validation and formatting. -/
theorem C2_validated_links_passed_in_candidate_order (env : Env)
    (conns : List String) (content : String) (cf : Option VaultFile) :
    List.Sublist (validateAndFilterConnections env conns content cf)
      ((resolveFileInfos env conns).map Prod.fst) :=
  validated_sublist env conns content cf

/-- Claim C2, counterexample.  A vault holding a root note B and a folder
note X slash B produces the accepted link B twice, so a distinct link does
not appear exactly once in the list handed to the formatter; and a vault
listing C before B hands the formatter a list that is not sorted
lexicographically. -/
theorem C2_cx_duplicate_and_unsorted_links_reach_formatter :
    validateAndFilterConnections envDup (potentialConnections envDup fileA) "x"
        (some fileA) = ["[[B]]", "[[B]]"]
      ∧ decide ((validateAndFilterConnections envDup (potentialConnections envDup fileA)
          "x" (some fileA)).countP (fun l => decide (l = "[[B]]")) = 1) = false
      ∧ validateAndFilterConnections envUnsorted (potentialConnections envUnsorted fileA)
          "x" (some fileA) = ["[[C]]", "[[B]]"]
      ∧ isSortedLex ["[[C]]", "[[B]]"] = false :=
  ⟨by decide, by decide, by decide, by decide⟩

/-- Claim C10, confirmed.  A candidate whose basename (bracket-free, as
basenames are) has no root-level file named basename dot md is dropped
during resolution: its basename never reaches the resolved candidate list
(hence no pre-filter or validation call sees it), and its link is never
among the validated links. -/
theorem C10_folder_note_without_root_file_never_validated (env : Env)
    (conns : List String) (content : String) (cf : Option VaultFile) (b : String)
    (hb : b.data.all (fun c => !(decide (c = ']'))) = true)
    (hnone : getAbstractFileByPath env.vault (b ++ ".md") = none) :
    containsStr ((resolveFileInfos env conns).map Prod.snd) b = false
      ∧ containsStr (validateAndFilterConnections env conns content cf)
          ("[[" ++ b ++ "]]") = false := by
  constructor
  · rw [containsStr, List.any_eq_false]
    intro x hx
    simp only [decide_eq_true_eq]
    intro hxb
    subst hxb
    rw [List.mem_map] at hx
    obtain ⟨info, hinfo, hsnd⟩ := hx
    obtain ⟨_, f, hf, _⟩ := mem_resolveFileInfos env conns info hinfo
    rw [hsnd, hnone] at hf
    cases hf
  · rw [containsStr, List.any_eq_false]
    intro x hx
    simp only [decide_eq_true_eq]
    intro hxb
    subst hxb
    have hmem := (validated_sublist env conns content cf).subset hx
    rw [List.mem_map] at hmem
    obtain ⟨info, hinfo, hfst⟩ := hmem
    obtain ⟨hext, f, hf, _⟩ := mem_resolveFileInfos env conns info hinfo
    rw [hfst, extractWikiLink_wrap b hb] at hext
    injection hext with h2
    rw [← h2, hnone] at hf
    cases hf

/-- Claim C10, witness.  In the vault holding only A and the folder note X
slash B, the basename B does not resolve and the link B is absent from the
validated links. -/
theorem C10_witness :
    containsStr ((resolveFileInfos envNoRoot
        (potentialConnections envNoRoot fileA)).map Prod.snd) "B" = false
      ∧ containsStr (validateAndFilterConnections envNoRoot
          (potentialConnections envNoRoot fileA) "x" (some fileA))
          ("[[" ++ "B" ++ "]]") = false :=
  C10_folder_note_without_root_file_never_validated envNoRoot
    (potentialConnections envNoRoot fileA) "x" (some fileA) "B"
    (by decide) (by decide)

/-- Claim C3, corrected.  The validator and the tag weaver dispatch every
provider kind to its own wire adapter, and the pre-filter does so for
every kind except anthropic: the pre-filter issues its call through
makeOpenAIRequest, which forwards together and local providers but sends
anthropic-provider models to the OpenAI chat wire. -/
theorem C3_dispatch_correct_except_prefilter_anthropic :
    (∀ m : Model, validateWire m = specOwnAdapterWire m)
      ∧ (∀ m : Model, weaveWire m
          = if m = Model.ollama then none else some (specOwnAdapterWire m))
      ∧ (∀ m : Model, ¬(MODEL_PRICING_provider m = Provider.anthropic) →
          prefilterWire m = specOwnAdapterWire m)
      ∧ prefilterWire Model.claude35 = Wire.openaiChat
      ∧ prefilterWire Model.claude3 = Wire.openaiChat := by
  refine ⟨fun m => ?_, fun m => ?_, fun m hm => ?_, rfl, rfl⟩
  · cases m <;> rfl
  · cases m <;> decide
  · cases m <;> first | rfl | exact absurd rfl hm

/-- Claim C3, counterexample.  For an anthropic-provider model the title
pre-filter call is dispatched to the OpenAI chat wire, not to the
anthropic messages wire the specification names as that provider's own
adapter. -/
theorem C3_cx_prefilter_sends_anthropic_to_openai_wire :
    prefilterWire Model.claude3 = Wire.openaiChat
      ∧ MODEL_PRICING_provider Model.claude3 = Provider.anthropic
      ∧ specOwnAdapterWire Model.claude3 = Wire.anthropicMessages
      ∧ decide (Wire.openaiChat = Wire.anthropicMessages) = false :=
  ⟨rfl, rfl, rfl, by decide⟩

/-- Claim C4, corrected.  The pre-filter fails open on a thrown error, a
JSON parse failure, a non-array value, and an array of the wrong length,
and always answers with a list of the input's length; but the acceptance
test is only array-shape and length, not boolean-ness of the elements. -/
theorem C4_prefilter_fails_open_on_shape_or_error :
    (∀ ts : List String,
        checkTitlesRelevance ts TitleOutcome.err = ts.map (fun _ => true))
      ∧ (∀ ts : List String,
          checkTitlesRelevance ts (TitleOutcome.ok none) = ts.map (fun _ => true))
      ∧ (∀ (ts : List String) (j : Json), j.isArr = false →
          checkTitlesRelevance ts (TitleOutcome.ok (some j)) = ts.map (fun _ => true))
      ∧ (∀ (ts : List String) (xs : List Json), ¬(xs.length = ts.length) →
          checkTitlesRelevance ts (TitleOutcome.ok (some (Json.arr xs)))
            = ts.map (fun _ => true))
      ∧ (∀ (ts : List String) (r : TitleOutcome),
          (checkTitlesRelevance ts r).length = ts.length) := by
  refine ⟨fun ts => rfl, fun ts => rfl, fun ts j hj => ?_, fun ts xs hlen => ?_,
    fun ts r => checkTitlesRelevance_length ts r⟩
  · cases j <;> first | rfl | simp [Json.isArr] at hj
  · simp only [checkTitlesRelevance]
    rw [if_neg hlen]

/-- Claim C4, counterexample.  A response parsing to the array of the
numbers one and zero, with two input titles, is not a boolean array of the
input's length, yet the pre-filter does not return all-true: JavaScript
truthiness turns it into true then false. -/
theorem C4_cx_numeric_array_not_failed_open :
    checkTitlesRelevance ["a", "b"]
        (TitleOutcome.ok (some (Json.arr [Json.num 1, Json.num 0]))) = [true, false]
      ∧ isBoolArray (Json.arr [Json.num 1, Json.num 0]) = false
      ∧ decide (([true, false] : List Bool) = [true, true]) = false :=
  ⟨by decide, by decide, by decide⟩

/-- Claim C5, confirmed.  The validator answers positively exactly when
the response text, trimmed then lowercased, is the literal true; a thrown
provider error yields false, and the function is total, so nothing escapes
the boundary. -/
theorem C5_validator_accepts_exactly_trimmed_lowered_true
    (s : Settings) (c₁ c₂ : String) :
    validateConnection s c₁ c₂ VOutcome.err = false
      ∧ (∀ out : VOutcome, validateConnection s c₁ c₂ out = true
          ↔ ∃ t, out = VOutcome.ok t ∧ jsToLower (jsTrim t) = "true") := by
  refine ⟨rfl, fun out => ?_⟩
  cases out with
  | err => simp [validateConnection]
  | ok t => simp [validateConnection]

/-- Claim C8, corrected.  Both local adapters append (not prepend) the
respond-with-only-true-or-false instruction to the joined prompt; only the
ollama branch post-processes the lowercased trimmed response by substring
search, testing the token true before the token false regardless of
position, and errors when neither occurs; the llama.cpp branch returns the
raw content untouched and never raises that error. -/
theorem C8_instruction_appended_and_only_ollama_postprocesses :
    (∀ msgs : List (String × String),
        ollamaPromptSent msgs = joinPrompt msgs ++ llamaInstruction)
      ∧ (∀ msgs : List (String × String),
          llamaPromptSent msgs = joinPrompt msgs ++ llamaInstruction)
      ∧ (∀ raw : String, ollamaExtract raw = LlamaReply.ambiguousError
          ↔ (containsSub (jsTrim (jsToLower raw)).data "true".data = false
              ∧ containsSub (jsTrim (jsToLower raw)).data "false".data = false))
      ∧ (∀ raw : String, containsSub (jsTrim (jsToLower raw)).data "true".data = true →
          ollamaExtract raw = LlamaReply.ok "true")
      ∧ (∀ raw : String, llamaExtract raw = LlamaReply.ok raw) := by
  refine ⟨fun msgs => rfl, fun msgs => rfl, fun raw => ?_, fun raw h => ?_,
    fun raw => rfl⟩
  · unfold ollamaExtract
    cases h1 : containsSub (jsTrim (jsToLower raw)).data "true".data
    · cases h2 : containsSub (jsTrim (jsToLower raw)).data "false".data
      · simp [h1, h2]
      · simp [h1, h2]
    · simp [h1]
  · simp [ollamaExtract, h]

/-- Claim C8, counterexample.  The llama.cpp branch hands back an
ambiguous response untouched instead of failing; the ollama branch
answers true for a text in which false occurs first; and the instruction
is a suffix of the sent prompt, which starts with the joined messages, not
with the instruction. -/
theorem C8_cx_llama_branch_raw_and_instruction_is_suffix :
    llamaExtract "maybe" = LlamaReply.ok "maybe"
      ∧ ollamaExtract "it is false, not true" = LlamaReply.ok "true"
      ∧ jsStartsWith (ollamaPromptSent [("user", "hi")]) llamaInstruction = false
      ∧ jsStartsWith (ollamaPromptSent [("user", "hi")]) "user: hi" = true :=
  ⟨by decide, by decide, by decide, by decide⟩

/-- Claim C9, confirmed.  Every tag the weaver adds is a member of the
supplied vocabulary and absent from the document's existing-tag set; an
empty vocabulary ends in the no-tags notice before any dispatch, and an
empty filtered result ends in the no-relevant-tags notice — informational
messages, not errors. -/
theorem C9_weave_tags_vocabulary_and_noop_contract :
    (∀ (s : Settings) (vt ex : List String) (text : String) (tags : List String),
        weaveTagsIntoNote s vt ex (VOutcome.ok text) = WeaveResult.added tags →
        tags.all (fun t => containsStr (computeAvailableTags s vt) t
          && !(containsStr ex t)) = true)
      ∧ (∀ (s : Settings) (vt ex : List String) (resp : VOutcome),
          computeAvailableTags s vt = [] →
          weaveTagsIntoNote s vt ex resp = WeaveResult.noTagsAvailable)
      ∧ (∀ (s : Settings) (vt ex : List String) (text : String),
          ¬(computeAvailableTags s vt = []) → ¬(weaveWire s.model = none) →
          suggestedTags text (computeAvailableTags s vt) = [] →
          weaveTagsIntoNote s vt ex (VOutcome.ok text) = WeaveResult.noRelevant) := by
  refine ⟨?_, ?_, ?_⟩
  · intro s vt ex text tags h
    by_cases ha : (computeAvailableTags s vt).length = 0
    · simp [weaveTagsIntoNote, ha] at h
    · rcases hw : weaveWire s.model with _ | w
      · simp [weaveTagsIntoNote, ha, hw] at h
      · by_cases hs : (suggestedTags text (computeAvailableTags s vt)).length = 0
        · simp [weaveTagsIntoNote, ha, hw, hs] at h
        · by_cases hn : ((suggestedTags text (computeAvailableTags s vt)).filter
              (fun tag => !(containsStr ex tag))).length = 0
          · simp [weaveTagsIntoNote, ha, hw, hs, hn] at h
          · simp [weaveTagsIntoNote, ha, hw, hs, hn] at h
            rw [List.all_eq_true]
            intro t ht
            rw [← h, List.mem_filter] at ht
            obtain ⟨hsugm, hnotex⟩ := ht
            unfold suggestedTags at hsugm
            rw [List.mem_filter] at hsugm
            obtain ⟨_, hav⟩ := hsugm
            simp [hav, hnotex]
  · intro s vt ex resp h
    unfold weaveTagsIntoNote
    rw [h]
    simp
  · intro s vt ex text hne hww hsug
    have ha : ¬((computeAvailableTags s vt).length = 0) := by
      simpa [List.length_eq_zero] using hne
    rcases hw : weaveWire s.model with _ | w
    · exact absurd hw hww
    · simp [weaveTagsIntoNote, ha, hw, hsug]

end MindWeaver
